import Mathlib

/-!
Verification development for the Pidroid leveling/XP engine and
role-change queue (`src/pidroid/utils/api.py`).

The database tables are modelled as Lean structures holding lists of rows;
each API method is translated to a pure function on that state.  SQL
`SELECT ... fetchone()` becomes `List.find?`, `UPDATE ... WHERE` becomes a
`List.map` guarded by the filter predicate, `INSERT` appends a row with a
fresh id drawn from a counter, `DELETE ... WHERE id IN ids` becomes a
`List.filter`, and `ORDER BY level DESC` becomes an insertion sort by the
descending-level relation.
-/

/-- Row of the `UserLevels` table (`UserLevelsTable` in `api.py`):
server defaults are total_xp=0, current_xp=0, xp_to_next_level=100, level=0. -/
structure UserLevelsRow where
  id : Nat
  guild_id : Nat
  user_id : Nat
  total_xp : Nat
  current_xp : Nat
  xp_to_next_level : Nat
  level : Nat
  progress_character : Option String
deriving DecidableEq

/-- State of the `UserLevels` table: its rows plus the id sequence counter. -/
structure LevelsDB where
  rows : List UserLevelsRow
  next_id : Nat
deriving DecidableEq

/-- Modelled from the spec and from the explicit constructor call in
`API.fetch_ranked_user_level_info`: the `MemberLevelInfo` value object
(class `pidroid.utils.levels.MemberLevelInfo`, not under `src/`).
Field order follows the positional constructor arguments used in `api.py`. -/
structure MemberLevelInfo where
  row : Nat
  guild_id : Nat
  user_id : Nat
  total_xp : Nat
  current_xp : Nat
  xp_to_level_up : Nat
  current_level : Nat
  progress_character : Option String
  rank : Option Nat
deriving DecidableEq

/-- Modelled from the spec: `MemberLevelInfo.from_table` wraps a table row,
copying each column into the matching field (rank is not stored). -/
def MemberLevelInfo.from_table (r : UserLevelsRow) : MemberLevelInfo :=
  { row := r.id
    guild_id := r.guild_id
    user_id := r.user_id
    total_xp := r.total_xp
    current_xp := r.current_xp
    xp_to_level_up := r.xp_to_next_level
    current_level := r.level
    progress_character := r.progress_character
    rank := none }

/-- `API.fetch_user_level_info`: `SELECT ... WHERE guild_id = g AND user_id = u`,
then `fetchone()`. -/
def fetch_user_level_info (db : LevelsDB) (g u : Nat) : Option UserLevelsRow :=
  db.rows.find? (fun r => r.guild_id == g && r.user_id == u)

/-- The row inserted by `API.insert_member_level_info`: only guild_id and
user_id are given, every other column takes its server default. -/
def defaultLevelRow (id g u : Nat) : UserLevelsRow :=
  { id := id
    guild_id := g
    user_id := u
    total_xp := 0
    current_xp := 0
    xp_to_next_level := 100
    level := 0
    progress_character := none }

/-- `API.insert_member_level_info`: inserts an empty member level entry. -/
def insert_member_level_info (db : LevelsDB) (g u : Nat) : LevelsDB :=
  { rows := db.rows ++ [defaultLevelRow db.next_id g u]
    next_id := db.next_id + 1 }

/-- The level-up loop of `API.award_xp`, returning
(new_xp, new_level, new_xp_to_next_level).  Source:
`while True: if new_xp >= new_xp_to_next_level: level+1; xp -= threshold;`
`threshold = 5*level**2 + 50*level + 100 else: break`. -/
def levelLoop (xp level threshold : Nat) : Nat × Nat × Nat :=
  if h : threshold ≤ xp then
    levelLoop (xp - threshold) (level + 1)
      (5 * (level + 1) ^ 2 + 50 * (level + 1) + 100)
  else
    (xp, level, threshold)
termination_by xp + (if threshold = 0 then 1 else 0)
decreasing_by
  simp only [if_false]
  rcases Nat.eq_zero_or_pos threshold with h0 | h0
  · rw [h0, if_pos rfl]
    omega
  · rw [if_neg (Nat.pos_iff_ne_zero.mp h0)]
    omega

/-- The `UPDATE UserLevels SET current_xp, xp_to_next_level,`
`total_xp = total_xp + amount, level WHERE guild_id = g AND user_id = u`
statement issued by `API.award_xp`. -/
def applyAwardUpdate (rows : List UserLevelsRow) (g u new_xp new_threshold new_level amount : Nat) :
    List UserLevelsRow :=
  rows.map fun r =>
    if r.guild_id == g && r.user_id == u then
      { r with
        current_xp := new_xp
        xp_to_next_level := new_threshold
        total_xp := r.total_xp + amount
        level := new_level }
    else r

/-- Result of one `award_xp` call: the new table state together with the
payload of the `pidroid_level_up` dispatch (pre-state, post-state), or
`none` when no event was dispatched. -/
structure AwardResult where
  db : LevelsDB
  dispatch : Option (MemberLevelInfo × MemberLevelInfo)
deriving DecidableEq

/-- `API.award_xp`: fetch the member's level info, inserting a default row
first when none exists; run the level-up loop; persist the updated row;
dispatch `pidroid_level_up` when the row was newly inserted or the level
changed.  The `none` branch of the inner match is unreachable (the Python
code asserts the re-fetch after insert is not None); it performs no write,
matching the assert aborting before the UPDATE. -/
def award_xp (db : LevelsDB) (g u amount : Nat) : AwardResult :=
  let pre := fetch_user_level_info db g u
  let new_insert := pre.isNone
  let db1 := if new_insert then insert_member_level_info db g u else db
  match fetch_user_level_info db1 g u with
  | none => { db := db1, dispatch := none }
  | some row =>
    let info := MemberLevelInfo.from_table row
    let res := levelLoop (info.current_xp + amount) info.current_level info.xp_to_level_up
    let new_xp := res.1
    let new_level := res.2.1
    let new_xp_to_next_level := res.2.2
    let db2 : LevelsDB :=
      { db1 with rows := applyAwardUpdate db1.rows g u new_xp new_xp_to_next_level new_level amount }
    let post : MemberLevelInfo :=
      { row := info.row
        guild_id := g
        user_id := u
        total_xp := info.total_xp + amount
        current_xp := new_xp
        xp_to_level_up := new_xp_to_next_level
        current_level := new_level
        progress_character := info.progress_character
        rank := none }
    let dispatch :=
      if new_insert || new_level != info.current_level then some (info, post) else none
    { db := db2, dispatch := dispatch }

/-- Folding a sequence of `award_xp` calls over the table state. -/
def awardSeq (db : LevelsDB) (g u : Nat) (amounts : List Nat) : LevelsDB :=
  amounts.foldl (fun d a => (award_xp d g u a).db) db

/-- The total_xp recorded for (g, u), or 0 when the row does not exist. -/
def totalOf (db : LevelsDB) (g u : Nat) : Nat :=
  ((fetch_user_level_info db g u).map (fun r => r.total_xp)).getD 0

/-- The default-or-fetched row that `award_xp` reads before computing: when a
row exists it is that row, otherwise the freshly inserted default row. -/
def preRow (db : LevelsDB) (g u : Nat) : UserLevelsRow :=
  (fetch_user_level_info db g u).getD (defaultLevelRow db.next_id g u)

/-- The row `award_xp` persists for (g, u): the pre row with the four XP
fields replaced by the loop results and the incremented total. -/
def postRow (db : LevelsDB) (g u amount : Nat) : UserLevelsRow :=
  let r := preRow db g u
  let res := levelLoop (r.current_xp + amount) r.level r.xp_to_next_level
  { r with
    current_xp := res.1
    xp_to_next_level := res.2.2
    total_xp := r.total_xp + amount
    level := res.2.1 }

/-- The post-state `MemberLevelInfo` that `award_xp` builds for the dispatch. -/
def postInfo (db : LevelsDB) (g u amount : Nat) : MemberLevelInfo :=
  let r := preRow db g u
  let res := levelLoop (r.current_xp + amount) r.level r.xp_to_next_level
  { row := r.id
    guild_id := g
    user_id := u
    total_xp := r.total_xp + amount
    current_xp := res.1
    xp_to_level_up := res.2.2
    current_level := res.2.1
    progress_character := r.progress_character
    rank := none }

/-- Step-indexed version of the level-up loop, one fuel unit per iteration of
the source's `while True`; `none` means the fuel ran out before the loop
exited.  Used to state that the loop terminates. -/
def levelLoopFuel : Nat → Nat → Nat → Nat → Option (Nat × Nat × Nat)
  | 0, _, _, _ => none
  | n + 1, xp, level, threshold =>
    if threshold ≤ xp then
      levelLoopFuel n (xp - threshold) (level + 1)
        (5 * (level + 1) ^ 2 + 50 * (level + 1) + 100)
    else some (xp, level, threshold)

/-- Row of the `LevelRewards` table (`LevelRewardsTable` in `api.py`). -/
structure LevelRewardRow where
  id : Nat
  guild_id : Nat
  level : Nat
  role_id : Nat
deriving DecidableEq

/-- The `ORDER BY level DESC` relation on level-reward rows. -/
def rewardLevelGE (a b : LevelRewardRow) : Prop := b.level ≤ a.level

instance : DecidableRel rewardLevelGE :=
  fun a b => inferInstanceAs (Decidable (b.level ≤ a.level))

instance : IsTotal LevelRewardRow rewardLevelGE :=
  ⟨fun a b => Nat.le_total b.level a.level⟩

instance : IsTrans LevelRewardRow rewardLevelGE :=
  ⟨fun _ _ _ hab hbc => Nat.le_trans hbc hab⟩

/-- `API.fetch_eligible_level_rewards_for_level`: rewards of the guild with
`level <= lvl`, sorted by required level descending. -/
def fetch_eligible_level_rewards_for_level (tbl : List LevelRewardRow) (g lvl : Nat) :
    List LevelRewardRow :=
  List.insertionSort rewardLevelGE
    (tbl.filter (fun r => r.guild_id == g && decide (r.level ≤ lvl)))

/-- `API.fetch_eligible_level_reward_for_level`: `None` on an empty result,
otherwise the first entry of the descending list. -/
def fetch_eligible_level_reward_for_level (tbl : List LevelRewardRow) (g lvl : Nat) :
    Option LevelRewardRow :=
  (fetch_eligible_level_rewards_for_level tbl g lvl).head?

/-- `API._fetch_previous_level_reward`: rewards with `level < lvl`,
`ORDER BY level DESC`, `fetchone()`. -/
def fetch_previous_level_reward (tbl : List LevelRewardRow) (g lvl : Nat) :
    Option LevelRewardRow :=
  (List.insertionSort rewardLevelGE
    (tbl.filter (fun r => r.guild_id == g && decide (r.level < lvl)))).head?

/-- `API._fetch_next_level_reward`: rewards with `level > lvl`, and — exactly
as in the source — `ORDER BY level DESC` (descending, not ascending),
`fetchone()`. -/
def fetch_next_level_reward (tbl : List LevelRewardRow) (g lvl : Nat) :
    Option LevelRewardRow :=
  (List.insertionSort rewardLevelGE
    (tbl.filter (fun r => r.guild_id == g && decide (lvl < r.level)))).head?

/-- Modelled from the spec: `RoleAction` (grant | revoke) from
`pidroid.models.role_changes`, a module not under `src/`.  The numeric
values are pinned by the aggregation filters of `API.fetch_role_changes`
(`action == 1` is labelled role_added, `action == 0` role_removed). -/
inductive RoleAction where
  | revoke
  | grant
deriving DecidableEq

/-- Modelled from the spec: the `.value` of each `RoleAction` member. -/
def RoleAction.value : RoleAction → Nat
  | .revoke => 0
  | .grant => 1

/-- Modelled from the spec: `RoleQueueState.enqueued.value`, the status every
inserted entry receives; no reader of the queue ever filters on it. -/
def roleQueueStateEnqueued : Nat := 0

/-- Row of the `RoleChangeQueue` table (`RoleChangeQueueTable` in `api.py`). -/
structure RoleChangeRow where
  id : Nat
  action : Nat
  status : Nat
  guild_id : Nat
  member_id : Nat
  role_id : Nat
deriving DecidableEq

/-- State of the `RoleChangeQueue` table plus its id sequence counter. -/
structure RoleQueueDB where
  rows : List RoleChangeRow
  next_id : Nat
deriving DecidableEq

/-- `API.insert_role_change`: appends one entry with status enqueued. -/
def insert_role_change (db : RoleQueueDB) (action : RoleAction) (g m r : Nat) :
    RoleQueueDB :=
  let entry : RoleChangeRow :=
    { id := db.next_id
      action := action.value
      status := roleQueueStateEnqueued
      guild_id := g
      member_id := m
      role_id := r }
  { rows := db.rows ++ [entry]
    next_id := db.next_id + 1 }

/-- Modelled from the spec: the `MemberRoleChanges` value object
(`pidroid.models.role_changes`, not under `src/`): per member, the entry ids
for later deletion and the role-id collections to add and to remove; the
spec's sets are modelled as the aggregated lists, read up to membership. -/
structure MemberRoleChanges where
  member_id : Nat
  ids : List Nat
  roles_added : List Nat
  roles_removed : List Nat
deriving DecidableEq

/-- `API.fetch_role_changes`: `WHERE guild_id = g GROUP BY member_id`, with
`array_agg(id)`, `array_agg(role_id) FILTER (action = 1)` and
`array_agg(role_id) FILTER (action = 0)`. -/
def fetch_role_changes (db : RoleQueueDB) (g : Nat) : List MemberRoleChanges :=
  let filtered := db.rows.filter (fun r => r.guild_id == g)
  ((filtered.map (fun r => r.member_id)).dedup).map (fun m =>
    let entries := filtered.filter (fun r => r.member_id == m)
    { member_id := m
      ids := entries.map (fun r => r.id)
      roles_added := (entries.filter (fun r => r.action == 1)).map (fun r => r.role_id)
      roles_removed := (entries.filter (fun r => r.action == 0)).map (fun r => r.role_id) })

/-- `API.delete_role_changes`: `DELETE FROM RoleChangeQueue WHERE id IN ids`. -/
def delete_role_changes (db : RoleQueueDB) (ids : List Nat) : RoleQueueDB :=
  { db with rows := db.rows.filter (fun r => !(ids.contains r.id)) }

/-- The queue obtained by enqueuing grant(role 7) and then revoke(role 7) for
member 2 of guild 1 on an empty queue. -/
def roundTripQueue : RoleQueueDB :=
  insert_role_change (insert_role_change ⟨[], 1⟩ RoleAction.grant 1 2 7)
    RoleAction.revoke 1 2 7

/-- Unfolded description of `award_xp` used by the proofs: the table after the
UPDATE, the id counter after the optional INSERT, and the dispatch decision
`new_insert or new_level != original_level`. -/
def awardSpec (db : LevelsDB) (g u amount : Nat) : AwardResult :=
  let db1 := if (fetch_user_level_info db g u).isNone
    then insert_member_level_info db g u else db
  let r := preRow db g u
  let res := levelLoop (r.current_xp + amount) r.level r.xp_to_next_level
  { db := { rows := applyAwardUpdate db1.rows g u res.1 res.2.2 res.2.1 amount
            next_id := db1.next_id }
    dispatch := if (fetch_user_level_info db g u).isNone || (res.2.1 != r.level)
      then some (MemberLevelInfo.from_table r, postInfo db g u amount)
      else none }

theorem levelLoop_fst_lt_threshold (xp level threshold : Nat) :
    (levelLoop xp level threshold).1 < (levelLoop xp level threshold).2.2 := by
  induction xp, level, threshold using levelLoop.induct with
  | case1 xp level threshold h ih =>
    rw [levelLoop, dif_pos h]
    exact ih
  | case2 xp level threshold h =>
    rw [levelLoop, dif_neg h]
    show xp < threshold
    omega

theorem find?_applyAwardUpdate (g u nx nt nl amt : Nat) (rows : List UserLevelsRow) :
    List.find? (fun r => r.guild_id == g && r.user_id == u)
        (applyAwardUpdate rows g u nx nt nl amt)
      = (List.find? (fun r => r.guild_id == g && r.user_id == u) rows).map
          (fun r => { r with
            current_xp := nx, xp_to_next_level := nt,
            total_xp := r.total_xp + amt, level := nl }) := by
  have hpf : ((fun r : UserLevelsRow => r.guild_id == g && r.user_id == u) ∘
      (fun r : UserLevelsRow =>
        if r.guild_id == g && r.user_id == u then
          { r with current_xp := nx, xp_to_next_level := nt,
                   total_xp := r.total_xp + amt, level := nl }
        else r))
      = (fun r : UserLevelsRow => r.guild_id == g && r.user_id == u) := by
    funext r
    by_cases hr : (r.guild_id == g && r.user_id == u) = true
    · simp only [Function.comp_apply, if_pos hr]
    · simp only [Function.comp_apply, if_neg hr]
  rw [applyAwardUpdate, List.find?_map, hpf]
  cases hfind : List.find? (fun r : UserLevelsRow => r.guild_id == g && r.user_id == u) rows with
  | none => rfl
  | some r =>
    have hp := List.find?_some hfind
    simp only [Option.map_some', if_pos hp]

theorem fetch_insert_of_none (db : LevelsDB) (g u : Nat)
    (h : fetch_user_level_info db g u = none) :
    fetch_user_level_info (insert_member_level_info db g u) g u
      = some (defaultLevelRow db.next_id g u) := by
  simp only [fetch_user_level_info, insert_member_level_info] at *
  rw [List.find?_append, h]
  simp [defaultLevelRow]

theorem award_xp_eq (db : LevelsDB) (g u amount : Nat) :
    award_xp db g u amount = awardSpec db g u amount := by
  cases hf : fetch_user_level_info db g u with
  | none =>
    have hins := fetch_insert_of_none db g u hf
    simp [award_xp, awardSpec, hf, hins, preRow, postInfo,
      MemberLevelInfo.from_table, defaultLevelRow]
  | some r =>
    simp [award_xp, awardSpec, hf, preRow, postInfo, MemberLevelInfo.from_table]

theorem fetch_after_optional_insert (db : LevelsDB) (g u : Nat) :
    fetch_user_level_info
        (if (fetch_user_level_info db g u).isNone
          then insert_member_level_info db g u else db) g u
      = some (preRow db g u) := by
  cases hf : fetch_user_level_info db g u with
  | none => simpa [preRow, hf] using fetch_insert_of_none db g u hf
  | some r => simp [preRow, hf]

theorem fetch_award_xp (db : LevelsDB) (g u amount : Nat) :
    fetch_user_level_info (award_xp db g u amount).db g u
      = some (postRow db g u amount) := by
  rw [award_xp_eq]
  have h1 := fetch_after_optional_insert db g u
  simp only [awardSpec, fetch_user_level_info] at h1 ⊢
  rw [find?_applyAwardUpdate, h1]
  simp [postRow]

theorem totalOf_award_xp (db : LevelsDB) (g u a : Nat) :
    totalOf (award_xp db g u a).db g u = totalOf db g u + a := by
  simp only [totalOf, fetch_award_xp]
  cases hf : fetch_user_level_info db g u with
  | none => simp [postRow, preRow, hf, defaultLevelRow]
  | some r => simp [postRow, preRow, hf]

/-- C1: `award_xp` conforms to its state-transformation contract: a missing
row is first created with the default state (total_xp=0, current_xp=0,
level=0, xp_to_next_level=100), the level-up loop is applied to
current_xp + amount, and the persisted row carries the resulting
(current_xp, level, xp_to_next_level); in particular, awarding exactly
100 XP to a fresh member yields level 1 and xp_to_next_level 155. -/
theorem award_xp_state_contract (db : LevelsDB) (g u amount : Nat)
    (hpos : 0 < amount) :
    (fetch_user_level_info db g u = none →
      preRow db g u = defaultLevelRow db.next_id g u) ∧
    (∀ r, fetch_user_level_info db g u = some r → preRow db g u = r) ∧
    (∃ row', fetch_user_level_info (award_xp db g u amount).db g u = some row' ∧
      row'.current_xp = (levelLoop ((preRow db g u).current_xp + amount)
        (preRow db g u).level (preRow db g u).xp_to_next_level).1 ∧
      row'.level = (levelLoop ((preRow db g u).current_xp + amount)
        (preRow db g u).level (preRow db g u).xp_to_next_level).2.1 ∧
      row'.xp_to_next_level = (levelLoop ((preRow db g u).current_xp + amount)
        (preRow db g u).level (preRow db g u).xp_to_next_level).2.2) ∧
    (fetch_user_level_info (award_xp ⟨[], 0⟩ 1 2 100).db 1 2).map
        (fun r => (r.level, r.xp_to_next_level, r.current_xp)) = some (1, 155, 0) := by
  refine ⟨fun h => by simp [preRow, h], fun r h => by simp [preRow, h],
    ⟨postRow db g u amount, fetch_award_xp db g u amount,
      by simp [postRow], by simp [postRow], by simp [postRow]⟩, ?_⟩
  rw [fetch_award_xp]
  simp [postRow, preRow, fetch_user_level_info, defaultLevelRow, levelLoop]

/-- Witness for C1 at the fresh member of the in-particular scenario. -/
theorem award_xp_state_contract_witness :
    0 < 100 ∧
    ((fetch_user_level_info ⟨[], 0⟩ 1 2 = none →
      preRow ⟨[], 0⟩ 1 2 = defaultLevelRow (0 : Nat) 1 2) ∧
    (∀ r, fetch_user_level_info ⟨[], 0⟩ 1 2 = some r → preRow ⟨[], 0⟩ 1 2 = r) ∧
    (∃ row', fetch_user_level_info (award_xp ⟨[], 0⟩ 1 2 100).db 1 2 = some row' ∧
      row'.current_xp = (levelLoop ((preRow ⟨[], 0⟩ 1 2).current_xp + 100)
        (preRow ⟨[], 0⟩ 1 2).level (preRow ⟨[], 0⟩ 1 2).xp_to_next_level).1 ∧
      row'.level = (levelLoop ((preRow ⟨[], 0⟩ 1 2).current_xp + 100)
        (preRow ⟨[], 0⟩ 1 2).level (preRow ⟨[], 0⟩ 1 2).xp_to_next_level).2.1 ∧
      row'.xp_to_next_level = (levelLoop ((preRow ⟨[], 0⟩ 1 2).current_xp + 100)
        (preRow ⟨[], 0⟩ 1 2).level (preRow ⟨[], 0⟩ 1 2).xp_to_next_level).2.2) ∧
    (fetch_user_level_info (award_xp ⟨[], 0⟩ 1 2 100).db 1 2).map
        (fun r => (r.level, r.xp_to_next_level, r.current_xp)) = some (1, 155, 0)) :=
  ⟨by decide, award_xp_state_contract ⟨[], 0⟩ 1 2 100 (by decide)⟩

/-- C2: for every starting state satisfying current_xp < xp_to_next_level
(the freshly created default state included) and every positive amount, the
state persisted by `award_xp` again satisfies current_xp < xp_to_next_level. -/
theorem award_xp_preserves_invariant (db : LevelsDB) (g u amount : Nat)
    (hpos : 0 < amount)
    (hstart : (preRow db g u).current_xp < (preRow db g u).xp_to_next_level) :
    ∀ row', fetch_user_level_info (award_xp db g u amount).db g u = some row' →
      row'.current_xp < row'.xp_to_next_level := by
  intro row' h
  rw [fetch_award_xp] at h
  injection h with h
  subst h
  simpa [postRow] using
    levelLoop_fst_lt_threshold ((preRow db g u).current_xp + amount)
      (preRow db g u).level (preRow db g u).xp_to_next_level

/-- Witness for C2 at a fresh member awarded 100 XP. -/
theorem award_xp_preserves_invariant_witness :
    0 < 100 ∧
    (preRow ⟨[], 0⟩ 1 2).current_xp < (preRow ⟨[], 0⟩ 1 2).xp_to_next_level ∧
    (∀ row', fetch_user_level_info (award_xp ⟨[], 0⟩ 1 2 100).db 1 2 = some row' →
      row'.current_xp < row'.xp_to_next_level) :=
  ⟨by decide, by decide,
    award_xp_preserves_invariant ⟨[], 0⟩ 1 2 100 (by decide) (by decide)⟩

/-- C3: over any sequence of awards to the same (guild, member), total_xp
grows by exactly the sum of the amounts (each award adds its amount
unconditionally), hence it is monotone and never decreases. -/
theorem award_xp_total_xp_sum (db : LevelsDB) (g u : Nat) (amounts : List Nat)
    (hpos : ∀ a ∈ amounts, 0 < a) :
    totalOf (awardSeq db g u amounts) g u = totalOf db g u + amounts.sum ∧
    totalOf db g u ≤ totalOf (awardSeq db g u amounts) g u := by
  have key : ∀ (l : List Nat) (d : LevelsDB),
      totalOf (awardSeq d g u l) g u = totalOf d g u + l.sum := by
    intro l
    induction l with
    | nil => intro d; simp [awardSeq, totalOf]
    | cons a as ih =>
      intro d
      have h1 : awardSeq d g u (a :: as) = awardSeq (award_xp d g u a).db g u as := rfl
      rw [h1, ih, totalOf_award_xp]
      simp [List.sum_cons]
      omega
  refine ⟨key amounts db, ?_⟩
  rw [key amounts db]
  omega

/-- Witness for C3 with amounts [10, 100, 25] on a fresh member. -/
theorem award_xp_total_xp_sum_witness :
    (∀ a ∈ [10, 100, 25], 0 < a) ∧
    (totalOf (awardSeq ⟨[], 0⟩ 1 2 [10, 100, 25]) 1 2
        = totalOf ⟨[], 0⟩ 1 2 + [10, 100, 25].sum ∧
      totalOf ⟨[], 0⟩ 1 2 ≤ totalOf (awardSeq ⟨[], 0⟩ 1 2 [10, 100, 25]) 1 2) :=
  ⟨by decide, award_xp_total_xp_sum ⟨[], 0⟩ 1 2 [10, 100, 25] (by decide)⟩

theorem levelLoop_level_le (xp level threshold : Nat) :
    level ≤ (levelLoop xp level threshold).2.1 := by
  induction xp, level, threshold using levelLoop.induct with
  | case1 xp level threshold h ih =>
    rw [levelLoop, dif_pos h]
    exact Nat.le_of_succ_le ih
  | case2 xp level threshold h =>
    rw [levelLoop, dif_neg h]

/-- Counterexample to C4 as stated: from an empty table, member (1, 3) is
newly created, the 5-XP award leaves the member at level 0 (the dispatched
post-state has current_level = 0), yet `award_xp` does dispatch a level-up
notification, because the source tests `new_insert or new_level != original_level`
and `new_insert` alone suffices. -/
theorem award_xp_new_member_level0_still_dispatches :
    fetch_user_level_info ⟨[], 0⟩ 1 3 = none ∧
    (award_xp ⟨[], 0⟩ 1 3 5).dispatch
      = some (MemberLevelInfo.from_table (defaultLevelRow 0 1 3),
          { row := 0, guild_id := 1, user_id := 3, total_xp := 5, current_xp := 5,
            xp_to_level_up := 100, current_level := 0,
            progress_character := none, rank := none }) := by
  constructor
  · rfl
  · simp [award_xp, fetch_user_level_info, insert_member_level_info,
      defaultLevelRow, levelLoop, MemberLevelInfo.from_table]

/-- C4 as amended: `award_xp` dispatches the level-up notification exactly
when the row was newly created (regardless of the resulting level) or the
level changed (the loop can only raise it), and the notification carries the
pre-state and the post-state. -/
theorem award_xp_dispatch_condition (db : LevelsDB) (g u amount : Nat) :
    ((award_xp db g u amount).dispatch.isSome ↔
      (fetch_user_level_info db g u = none ∨
        (levelLoop ((preRow db g u).current_xp + amount) (preRow db g u).level
          (preRow db g u).xp_to_next_level).2.1 ≠ (preRow db g u).level)) ∧
    ((preRow db g u).level ≤ (levelLoop ((preRow db g u).current_xp + amount)
        (preRow db g u).level (preRow db g u).xp_to_next_level).2.1) ∧
    (∀ old new, (award_xp db g u amount).dispatch = some (old, new) →
      old = MemberLevelInfo.from_table (preRow db g u) ∧
      new = postInfo db g u amount) := by
  rw [award_xp_eq]
  refine ⟨?_, levelLoop_level_le _ _ _, ?_⟩
  · simp only [awardSpec]
    by_cases h1 : fetch_user_level_info db g u = none
    · simp [h1]
    · by_cases h2 : (levelLoop ((preRow db g u).current_xp + amount)
          (preRow db g u).level (preRow db g u).xp_to_next_level).2.1
          = (preRow db g u).level
      · simp [h1, h2]
      · simp [h1, h2]
  · intro old new
    simp only [awardSpec]
    split
    · intro h
      injection h with h
      injection h with h1 h2
      exact ⟨h1.symm, h2.symm⟩
    · intro h
      exact absurd h (by simp)

/-- Witness for C4 as amended, at a fresh member awarded 5 XP. -/
theorem award_xp_dispatch_condition_witness :
    ((award_xp ⟨[], 0⟩ 1 3 5).dispatch.isSome ↔
      (fetch_user_level_info ⟨[], 0⟩ 1 3 = none ∨
        (levelLoop ((preRow ⟨[], 0⟩ 1 3).current_xp + 5) (preRow ⟨[], 0⟩ 1 3).level
          (preRow ⟨[], 0⟩ 1 3).xp_to_next_level).2.1 ≠ (preRow ⟨[], 0⟩ 1 3).level)) ∧
    ((preRow ⟨[], 0⟩ 1 3).level ≤ (levelLoop ((preRow ⟨[], 0⟩ 1 3).current_xp + 5)
        (preRow ⟨[], 0⟩ 1 3).level (preRow ⟨[], 0⟩ 1 3).xp_to_next_level).2.1) ∧
    (∀ old new, (award_xp ⟨[], 0⟩ 1 3 5).dispatch = some (old, new) →
      old = MemberLevelInfo.from_table (preRow ⟨[], 0⟩ 1 3) ∧
      new = postInfo ⟨[], 0⟩ 1 3 5) :=
  award_xp_dispatch_condition ⟨[], 0⟩ 1 3 5

theorem forall₂_applyAwardUpdate (g u nx nt nl amt : Nat) (rows : List UserLevelsRow) :
    List.Forall₂ (fun r r' =>
        r'.id = r.id ∧ r'.guild_id = r.guild_id ∧ r'.user_id = r.user_id ∧
        r'.progress_character = r.progress_character ∧
        ((r.guild_id ≠ g ∨ r.user_id ≠ u) → r' = r))
      rows (applyAwardUpdate rows g u nx nt nl amt) := by
  induction rows with
  | nil => exact List.Forall₂.nil
  | cons a as ih =>
    refine List.Forall₂.cons ?_ ih
    by_cases h : (a.guild_id == g && a.user_id == u) = true
    · simp only [applyAwardUpdate, List.map_cons]
      rw [if_pos h]
      simp only [beq_iff_eq, Bool.and_eq_true] at h
      exact ⟨rfl, rfl, rfl, rfl, fun hc => absurd h (by tauto)⟩
    · simp only [applyAwardUpdate, List.map_cons]
      rw [if_neg h]
      exact ⟨rfl, rfl, rfl, rfl, fun _ => rfl⟩

/-- C10: `award_xp` only touches the four XP fields of the rows of the
targeted (guild, member): relative to the table after the optional default
insert, every row keeps its id, guild_id, user_id and progress_character,
any row of a different member or guild is entirely unchanged, the id counter
is unchanged by the UPDATE, and the post-state carried by the level-up
notification keeps the pre-state's progress_character. -/
theorem award_xp_frame (db : LevelsDB) (g u amount : Nat) :
    List.Forall₂ (fun r r' =>
        r'.id = r.id ∧ r'.guild_id = r.guild_id ∧ r'.user_id = r.user_id ∧
        r'.progress_character = r.progress_character ∧
        ((r.guild_id ≠ g ∨ r.user_id ≠ u) → r' = r))
      (if (fetch_user_level_info db g u).isNone
        then insert_member_level_info db g u else db).rows
      (award_xp db g u amount).db.rows ∧
    (award_xp db g u amount).db.next_id
      = (if (fetch_user_level_info db g u).isNone
          then insert_member_level_info db g u else db).next_id ∧
    (∀ old new, (award_xp db g u amount).dispatch = some (old, new) →
      new.progress_character = old.progress_character) := by
  rw [award_xp_eq]
  refine ⟨forall₂_applyAwardUpdate g u _ _ _ amount _, rfl, ?_⟩
  intro old new
  simp only [awardSpec]
  split
  · intro h
    injection h with h
    injection h with h1 h2
    subst h1
    subst h2
    simp [postInfo, MemberLevelInfo.from_table]
  · intro h
    exact absurd h (by simp)

/-- Witness for C10 on a two-row table containing another member's row. -/
theorem award_xp_frame_witness :
    List.Forall₂ (fun r r' =>
        r'.id = r.id ∧ r'.guild_id = r.guild_id ∧ r'.user_id = r.user_id ∧
        r'.progress_character = r.progress_character ∧
        ((r.guild_id ≠ 1 ∨ r.user_id ≠ 2) → r' = r))
      (if (fetch_user_level_info ⟨[⟨0, 1, 9, 50, 10, 100, 0, none⟩], 1⟩ 1 2).isNone
        then insert_member_level_info ⟨[⟨0, 1, 9, 50, 10, 100, 0, none⟩], 1⟩ 1 2
        else ⟨[⟨0, 1, 9, 50, 10, 100, 0, none⟩], 1⟩).rows
      (award_xp ⟨[⟨0, 1, 9, 50, 10, 100, 0, none⟩], 1⟩ 1 2 5).db.rows ∧
    (award_xp ⟨[⟨0, 1, 9, 50, 10, 100, 0, none⟩], 1⟩ 1 2 5).db.next_id
      = (if (fetch_user_level_info ⟨[⟨0, 1, 9, 50, 10, 100, 0, none⟩], 1⟩ 1 2).isNone
          then insert_member_level_info ⟨[⟨0, 1, 9, 50, 10, 100, 0, none⟩], 1⟩ 1 2
          else ⟨[⟨0, 1, 9, 50, 10, 100, 0, none⟩], 1⟩).next_id ∧
    (∀ old new,
      (award_xp ⟨[⟨0, 1, 9, 50, 10, 100, 0, none⟩], 1⟩ 1 2 5).dispatch = some (old, new) →
      new.progress_character = old.progress_character) :=
  award_xp_frame ⟨[⟨0, 1, 9, 50, 10, 100, 0, none⟩], 1⟩ 1 2 5

theorem levelLoopFuel_sufficient :
    ∀ (n xp level threshold : Nat), 0 < threshold → xp < n →
      levelLoopFuel n xp level threshold = some (levelLoop xp level threshold) := by
  intro n
  induction n with
  | zero =>
    intro xp level threshold _ hxp
    omega
  | succ n ih =>
    intro xp level threshold ht hxp
    by_cases hc : threshold ≤ xp
    · rw [levelLoopFuel, if_pos hc, levelLoop, dif_pos hc]
      exact ih _ _ _ (by positivity) (by omega)
    · rw [levelLoopFuel, if_neg hc, levelLoop, dif_neg hc]

/-- C9: the level-up loop terminates for every starting state with a positive
threshold: the curve value 5*level^2 + 50*level + 100 is at least 100 at
every level, and running the loop step-indexed (one fuel unit per iteration)
reaches the exit within xp + 1 iterations, returning the value of the total
function `levelLoop` that `award_xp` uses. -/
theorem levelLoop_terminates (xp level threshold : Nat) (h : 0 < threshold) :
    (∀ l : Nat, 100 ≤ 5 * l ^ 2 + 50 * l + 100) ∧
    levelLoopFuel (xp + 1) xp level threshold
      = some (levelLoop xp level threshold) :=
  ⟨fun l => Nat.le_add_left 100 (5 * l ^ 2 + 50 * l),
    levelLoopFuel_sufficient (xp + 1) xp level threshold h (Nat.lt_succ_self xp)⟩

/-- Witness for C9 at the default starting state awarded 100 XP. -/
theorem levelLoop_terminates_witness :
    0 < 100 ∧
    ((∀ l : Nat, 100 ≤ 5 * l ^ 2 + 50 * l + 100) ∧
      levelLoopFuel (100 + 1) 100 0 100 = some (levelLoop 100 0 100)) :=
  ⟨by decide, levelLoop_terminates 100 0 100 (by decide)⟩

theorem head?_sortDesc_is_max (l : List LevelRewardRow) (x : LevelRewardRow)
    (hx : (List.insertionSort rewardLevelGE l).head? = some x) :
    x ∈ l ∧ ∀ y ∈ l, y.level ≤ x.level := by
  have hsorted := List.sorted_insertionSort rewardLevelGE l
  have hperm := List.perm_insertionSort rewardLevelGE l
  cases hsort : List.insertionSort rewardLevelGE l with
  | nil => rw [hsort] at hx; exact absurd hx (by simp)
  | cons a rest =>
    rw [hsort] at hx hsorted hperm
    injection hx with hx
    subst hx
    constructor
    · exact hperm.mem_iff.mp (List.mem_cons_self a rest)
    · intro y hy
      rcases List.mem_cons.mp (hperm.mem_iff.mpr hy) with h | h
      · rw [h]
      · exact List.rel_of_sorted_cons hsorted y h

theorem head?_sortDesc_none (l : List LevelRewardRow)
    (hx : (List.insertionSort rewardLevelGE l).head? = none) : l = [] := by
  have hperm := List.perm_insertionSort rewardLevelGE l
  rw [List.head?_eq_none_iff] at hx
  rw [hx] at hperm
  exact (hperm.symm).eq_nil

/-- C5: `fetch_eligible_level_reward_for_level` returns a reward of the guild
with level at most the queried level that is highest-level among all such
rewards, and returns none exactly when the guild has no reward with level at
most the queried level; with rewards at levels 5, 10, 20, level 7 yields the
level-5 reward, level 20 the level-20 reward, and level 3 none. -/
theorem fetch_eligible_level_reward_spec (tbl : List LevelRewardRow) (g lvl : Nat) :
    (∀ r, fetch_eligible_level_reward_for_level tbl g lvl = some r →
      r ∈ tbl ∧ r.guild_id = g ∧ r.level ≤ lvl ∧
      ∀ r2 ∈ tbl, r2.guild_id = g → r2.level ≤ lvl → r2.level ≤ r.level) ∧
    (fetch_eligible_level_reward_for_level tbl g lvl = none →
      ∀ r2 ∈ tbl, r2.guild_id = g → ¬ r2.level ≤ lvl) ∧
    (fetch_eligible_level_reward_for_level
        [⟨1, 9, 5, 100⟩, ⟨2, 9, 10, 200⟩, ⟨3, 9, 20, 300⟩] 9 7
      = some ⟨1, 9, 5, 100⟩) ∧
    (fetch_eligible_level_reward_for_level
        [⟨1, 9, 5, 100⟩, ⟨2, 9, 10, 200⟩, ⟨3, 9, 20, 300⟩] 9 20
      = some ⟨3, 9, 20, 300⟩) ∧
    (fetch_eligible_level_reward_for_level
        [⟨1, 9, 5, 100⟩, ⟨2, 9, 10, 200⟩, ⟨3, 9, 20, 300⟩] 9 3
      = none) := by
  refine ⟨?_, ?_, by decide, by decide, by decide⟩
  · intro r hr
    have h := head?_sortDesc_is_max _ r hr
    rcases h with ⟨hmem, hmax⟩
    rw [List.mem_filter] at hmem
    rcases hmem with ⟨hintbl, hprops⟩
    simp only [Bool.and_eq_true, beq_iff_eq, decide_eq_true_eq] at hprops
    refine ⟨hintbl, hprops.1, hprops.2, ?_⟩
    intro r2 h2 hg2 hl2
    exact hmax r2 (List.mem_filter.mpr ⟨h2, by simp [hg2, hl2]⟩)
  · intro hr r2 h2 hg2 hl2
    have h := head?_sortDesc_none _ hr
    have : r2 ∈ (tbl.filter (fun r => r.guild_id == g && decide (r.level ≤ lvl))) :=
      List.mem_filter.mpr ⟨h2, by simp [hg2, hl2]⟩
    rw [h] at this
    exact absurd this (by simp)

/-- Witness for C5 at the three-reward table of the example. -/
theorem fetch_eligible_level_reward_spec_witness :
    (∀ r, fetch_eligible_level_reward_for_level
        [⟨1, 9, 5, 100⟩, ⟨2, 9, 10, 200⟩, ⟨3, 9, 20, 300⟩] 9 7 = some r →
      r ∈ ([⟨1, 9, 5, 100⟩, ⟨2, 9, 10, 200⟩, ⟨3, 9, 20, 300⟩] : List LevelRewardRow) ∧
        r.guild_id = 9 ∧ r.level ≤ 7 ∧
        ∀ r2 ∈ ([⟨1, 9, 5, 100⟩, ⟨2, 9, 10, 200⟩, ⟨3, 9, 20, 300⟩] : List LevelRewardRow),
          r2.guild_id = 9 → r2.level ≤ 7 → r2.level ≤ r.level) ∧
    (fetch_eligible_level_reward_for_level
        [⟨1, 9, 5, 100⟩, ⟨2, 9, 10, 200⟩, ⟨3, 9, 20, 300⟩] 9 7 = none →
      ∀ r2 ∈ ([⟨1, 9, 5, 100⟩, ⟨2, 9, 10, 200⟩, ⟨3, 9, 20, 300⟩] : List LevelRewardRow),
        r2.guild_id = 9 → ¬ r2.level ≤ 7) ∧
    (fetch_eligible_level_reward_for_level
        [⟨1, 9, 5, 100⟩, ⟨2, 9, 10, 200⟩, ⟨3, 9, 20, 300⟩] 9 7
      = some ⟨1, 9, 5, 100⟩) ∧
    (fetch_eligible_level_reward_for_level
        [⟨1, 9, 5, 100⟩, ⟨2, 9, 10, 200⟩, ⟨3, 9, 20, 300⟩] 9 20
      = some ⟨3, 9, 20, 300⟩) ∧
    (fetch_eligible_level_reward_for_level
        [⟨1, 9, 5, 100⟩, ⟨2, 9, 10, 200⟩, ⟨3, 9, 20, 300⟩] 9 3
      = none) :=
  fetch_eligible_level_reward_spec [⟨1, 9, 5, 100⟩, ⟨2, 9, 10, 200⟩, ⟨3, 9, 20, 300⟩] 9 7

/-- C6 evidence: `fetch_previous_level_reward` does return the nearest reward
strictly below the level (with rewards at levels 5 and 10, querying 20 gives
the level-10 reward), but `fetch_next_level_reward` — whose query orders by
level descending, exactly as the source does — returns the farthest reward
strictly above the level, not the nearest: with rewards at levels 5 and 10,
querying 3 gives the level-10 reward instead of the level-5 one. -/
theorem fetch_next_level_reward_not_nearest :
    fetch_previous_level_reward [⟨1, 9, 5, 100⟩, ⟨2, 9, 10, 200⟩] 9 20
      = some ⟨2, 9, 10, 200⟩ ∧
    fetch_previous_level_reward [⟨1, 9, 5, 100⟩, ⟨2, 9, 10, 200⟩] 9 7
      = some ⟨1, 9, 5, 100⟩ ∧
    fetch_next_level_reward [⟨1, 9, 5, 100⟩, ⟨2, 9, 10, 200⟩] 9 3
      = some ⟨2, 9, 10, 200⟩ ∧
    fetch_next_level_reward [⟨1, 9, 5, 100⟩, ⟨2, 9, 10, 200⟩] 9 3
      ≠ some ⟨1, 9, 5, 100⟩ := by
  refine ⟨by decide, by decide, by decide, by decide⟩

/-- C7: `fetch_role_changes` returns, for every member having at least one
entry in the guild, a group carrying exactly that member's entry ids, whose
added set holds exactly the role ids of the member's grant (action = 1)
entries and whose removed set holds exactly the role ids of the member's
revoke (action = 0) entries. -/
theorem fetch_role_changes_groups (db : RoleQueueDB) (g m : Nat)
    (hne : (db.rows.filter (fun r => r.guild_id == g)).filter
        (fun r => r.member_id == m) ≠ []) :
    ∃ c ∈ fetch_role_changes db g,
      c.member_id = m ∧
      c.ids = ((db.rows.filter (fun r => r.guild_id == g)).filter
          (fun r => r.member_id == m)).map (fun r => r.id) ∧
      (∀ role, role ∈ c.roles_added ↔
        ∃ e ∈ db.rows, e.guild_id = g ∧ e.member_id = m ∧
          e.action = 1 ∧ e.role_id = role) ∧
      (∀ role, role ∈ c.roles_removed ↔
        ∃ e ∈ db.rows, e.guild_id = g ∧ e.member_id = m ∧
          e.action = 0 ∧ e.role_id = role) := by
  obtain ⟨e, he⟩ := List.exists_mem_of_ne_nil _ hne
  rw [List.mem_filter] at he
  rcases he with ⟨hef, hem⟩
  have hm : m ∈ ((db.rows.filter (fun r => r.guild_id == g)).map
      (fun r => r.member_id)).dedup := by
    rw [List.mem_dedup]
    have hmap := List.mem_map_of_mem (fun r => r.member_id) hef
    have heq := beq_iff_eq.mp hem
    simpa [heq] using hmap
  refine ⟨_, List.mem_map_of_mem _ hm, rfl, rfl, ?_, ?_⟩
  · intro role
    simp only [List.mem_map, List.mem_filter, Bool.and_eq_true, beq_iff_eq]
    constructor
    · rintro ⟨e2, ⟨⟨⟨h1, h2⟩, h3⟩, h4⟩, h5⟩
      exact ⟨e2, h1, h2, h3, h4, h5⟩
    · rintro ⟨e2, h1, h2, h3, h4, h5⟩
      exact ⟨e2, ⟨⟨⟨h1, h2⟩, h3⟩, h4⟩, h5⟩
  · intro role
    simp only [List.mem_map, List.mem_filter, Bool.and_eq_true, beq_iff_eq]
    constructor
    · rintro ⟨e2, ⟨⟨⟨h1, h2⟩, h3⟩, h4⟩, h5⟩
      exact ⟨e2, h1, h2, h3, h4, h5⟩
    · rintro ⟨e2, h1, h2, h3, h4, h5⟩
      exact ⟨e2, ⟨⟨⟨h1, h2⟩, h3⟩, h4⟩, h5⟩

/-- Witness for C7 on the grant(7)-then-revoke(7) round-trip queue: the
member's group exists, and role 7 appears in both the added and the removed
collections rather than being merged away. -/
theorem fetch_role_changes_groups_witness :
    ((roundTripQueue.rows.filter (fun r => r.guild_id == 1)).filter
        (fun r => r.member_id == 2) ≠ []) ∧
    (∃ c ∈ fetch_role_changes roundTripQueue 1,
      c.member_id = 2 ∧
      c.ids = ((roundTripQueue.rows.filter (fun r => r.guild_id == 1)).filter
          (fun r => r.member_id == 2)).map (fun r => r.id) ∧
      (∀ role, role ∈ c.roles_added ↔
        ∃ e ∈ roundTripQueue.rows, e.guild_id = 1 ∧ e.member_id = 2 ∧
          e.action = 1 ∧ e.role_id = role) ∧
      (∀ role, role ∈ c.roles_removed ↔
        ∃ e ∈ roundTripQueue.rows, e.guild_id = 1 ∧ e.member_id = 2 ∧
          e.action = 0 ∧ e.role_id = role)) ∧
    (∀ c ∈ fetch_role_changes roundTripQueue 1,
      7 ∈ c.roles_added ∧ 7 ∈ c.roles_removed) :=
  ⟨by decide, fetch_role_changes_groups roundTripQueue 1 2 (by decide), by decide⟩

/-- C8: `delete_role_changes` is idempotent — deleting the same ids twice
equals deleting them once — and after the deletion no entry with one of the
given ids remains in the queue. -/
theorem delete_role_changes_idempotent (db : RoleQueueDB) (ids : List Nat) :
    delete_role_changes (delete_role_changes db ids) ids
      = delete_role_changes db ids ∧
    ∀ r ∈ (delete_role_changes db ids).rows, r.id ∉ ids := by
  constructor
  · simp [delete_role_changes, List.filter_filter]
  · intro r hr
    rw [delete_role_changes, List.mem_filter] at hr
    simpa using hr.2

/-- Witness for C8 on the round-trip queue, deleting ids [1, 2, 5]. -/
theorem delete_role_changes_idempotent_witness :
    delete_role_changes (delete_role_changes roundTripQueue [1, 2, 5]) [1, 2, 5]
      = delete_role_changes roundTripQueue [1, 2, 5] ∧
    ∀ r ∈ (delete_role_changes roundTripQueue [1, 2, 5]).rows, r.id ∉ [1, 2, 5] :=
  delete_role_changes_idempotent roundTripQueue [1, 2, 5]
